import Mathlib

/-!
# Verification of the GoogleScholarWebScraper matching engine

A shallow embedding in Lean 4 of the candidate-disambiguation and scoring
engine of the repository (files `search.py` and `scrape.py`), together with
theorems settling the frozen claims about it.

Modelling conventions:
* Python strings are Lean `String`; all character-level operations are done on
  `String.data` (`List Char`) so that every definition evaluates by kernel
  reduction.
* The external `unidecode` library is modelled by a character table restricted
  to the accented Latin letters of the Spanish/Western-European domain the
  program handles; every other character passes through unchanged.
* Python's `str.lower` is modelled over ASCII plus the same accented table.
* A dictionary field that can be missing or JSON-null is modelled by `PyStr`
  (absent / null / string); `dict.get(k, default)` and `x or ''` are modelled
  by `PyStr.getWithDefault` and `PyStr.orEmpty`.
* A Python function that can raise returns `Option` (`none` = exception).
* Network calls are cut at their interface: the list of CrossRef items
  (resp. search-engine results) is a parameter of the embedded function.
-/

/-- Model of Python `str.lower` for one character: ASCII letters plus the
accented Latin letters handled by this development. -/
def pyLowerChar (c : Char) : Char :=
  match c with
  | 'Á' => 'á' | 'À' => 'à' | 'Â' => 'â' | 'Ä' => 'ä' | 'Ã' => 'ã'
  | 'É' => 'é' | 'È' => 'è' | 'Ê' => 'ê' | 'Ë' => 'ë'
  | 'Í' => 'í' | 'Ì' => 'ì' | 'Î' => 'î' | 'Ï' => 'ï'
  | 'Ó' => 'ó' | 'Ò' => 'ò' | 'Ô' => 'ô' | 'Ö' => 'ö' | 'Õ' => 'õ'
  | 'Ú' => 'ú' | 'Ù' => 'ù' | 'Û' => 'û' | 'Ü' => 'ü'
  | 'Ñ' => 'ñ' | 'Ç' => 'ç'
  | _ => if 'A' ≤ c ∧ c ≤ 'Z' then Char.ofNat (c.toNat + 32) else c

/-- Model of Python `str.lower`. -/
def pyLower (s : String) : String := ⟨s.data.map pyLowerChar⟩

/-- Model of the external `unidecode.unidecode` transliteration for one
character, restricted to the accented Latin letters occurring in this domain;
any other character is unchanged. -/
def unidecodeChar (c : Char) : Char :=
  match c with
  | 'á' => 'a' | 'à' => 'a' | 'â' => 'a' | 'ä' => 'a' | 'ã' => 'a'
  | 'é' => 'e' | 'è' => 'e' | 'ê' => 'e' | 'ë' => 'e'
  | 'í' => 'i' | 'ì' => 'i' | 'î' => 'i' | 'ï' => 'i'
  | 'ó' => 'o' | 'ò' => 'o' | 'ô' => 'o' | 'ö' => 'o' | 'õ' => 'o'
  | 'ú' => 'u' | 'ù' => 'u' | 'û' => 'u' | 'ü' => 'u'
  | 'ñ' => 'n' | 'ç' => 'c'
  | 'Á' => 'A' | 'À' => 'A' | 'Â' => 'A' | 'Ä' => 'A' | 'Ã' => 'A'
  | 'É' => 'E' | 'È' => 'E' | 'Ê' => 'E' | 'Ë' => 'E'
  | 'Í' => 'I' | 'Ì' => 'I' | 'Î' => 'I' | 'Ï' => 'I'
  | 'Ó' => 'O' | 'Ò' => 'O' | 'Ô' => 'O' | 'Ö' => 'O' | 'Õ' => 'O'
  | 'Ú' => 'U' | 'Ù' => 'U' | 'Û' => 'U' | 'Ü' => 'U'
  | 'Ñ' => 'N' | 'Ç' => 'C'
  | _ => c

/-- Model of `unidecode.unidecode` on strings. -/
def unidecodeStr (s : String) : String := ⟨s.data.map unidecodeChar⟩

/-- An accented Latin letter of the modelled table. -/
def isAccentedLatin (c : Char) : Bool := unidecodeChar c ≠ c

/-- Model of a Python regex `\w` character for the modelled alphabet
(ASCII alphanumerics, underscore, and the accented Latin table, since Python
regexes are Unicode-aware). -/
def isWordChar (c : Char) : Bool := c.isAlphanum || c = '_' || isAccentedLatin c

/-- Model of `re.sub(r"[^\w\s]", "", s)`: keep word characters and
whitespace, drop everything else. -/
def stripPunct (s : String) : String :=
  ⟨s.data.filter (fun c => isWordChar c || c.isWhitespace)⟩

/-- Model of `s.replace('-', ' ')` (also of `re.sub(r"[-]", " ", s)`). -/
def hyphensToSpaces (s : String) : String :=
  ⟨s.data.map (fun c => if c = '-' then ' ' else c)⟩

/-- Split a character list at every character satisfying `p`, keeping empty
chunks (the helper under `splitWs`). -/
def splitChars (p : Char → Bool) : List Char → List (List Char)
  | [] => [[]]
  | c :: cs =>
    let r := splitChars p cs
    if p c then [] :: r
    else
      match r with
      | [] => [[c]]
      | t :: ts => (c :: t) :: ts

/-- Model of Python `s.split()` with no argument: split on whitespace runs,
dropping empty chunks. -/
def splitWs (s : String) : List String :=
  ((splitChars Char.isWhitespace s.data).map (fun l => (⟨l⟩ : String))).filter (· ≠ "")

/-- Model of Python `s.strip()`. -/
def pyStrip (s : String) : String :=
  ⟨((s.data.dropWhile Char.isWhitespace).reverse.dropWhile Char.isWhitespace).reverse⟩

/-- Model of the Python substring test `needle in hay` on strings. -/
def substrB (needle hay : String) : Bool := decide (needle.data <:+: hay.data)

/-- Python truthiness of an optional string (`None` and `""` are falsy). -/
def truthyS : Option String → Bool
  | none => false
  | some s => s ≠ ""

/-- A JSON/dict string field: missing key, explicit null, or a string. -/
inductive PyStr where
  | absent : PyStr
  | pynull : PyStr
  | str : String → PyStr
deriving DecidableEq, Repr

/-- Model of `(d.get(k) or '')`: both a missing key and null collapse to `""`. -/
def PyStr.orEmpty : PyStr → String
  | .str s => s
  | _ => ""

/-- Model of `d.get(k, default)`: the default is used only when the key is
missing; an explicit null comes back as Python `None` (here `none`). -/
def PyStr.getWithDefault : PyStr → String → Option String
  | .absent, d => some d
  | .pynull, _ => none
  | .str s, _ => some s

/-- One entry of a CrossRef item's `author` list.  `affiliation` is the list
of the affiliations' `name` strings (each `aff.get("name", "")`). -/
structure Author where
  given : PyStr
  family : PyStr
  affiliation : List String
deriving DecidableEq, Repr

/-- A CrossRef work item, restricted to the fields the matching engine reads.
`doi` is `item.get("DOI")` (`none` = missing), `publisher` is
`item.get("publisher", "")`, `createdDateParts` is
`item.get("created", {}).get("date-parts", [])`.  The title is only used for
debug printing in the source and is omitted. -/
structure Item where
  doi : Option String
  author : List Author
  publisher : String
  createdDateParts : List (List Int)
deriving DecidableEq, Repr

/-- `parse_spanish_name` (search.py:12-28): split the lowercased name on
whitespace; `< 2` tokens gives no surnames, `= 2` tokens gives given name and
paternal surname, `≥ 3` tokens gives first token, second-to-last token
(`tokens[-2]`) and last token (`tokens[-1]`). -/
def parse_spanish_name (full_name : String) : List String × Option String × Option String :=
  let tokens := splitWs (pyLower full_name)
  if tokens.length < 2 then (tokens, none, none)
  else
    let first_names := tokens.take 1
    if tokens.length = 2 then (first_names, tokens.get? 1, none)
    else (first_names, tokens.dropLast.getLast?, tokens.getLast?)

/-- `spanish_name_match_combined` (search.py:30-80). -/
def spanish_name_match_combined (author : Author) (user_full_name : String) : Bool :=
  match parse_spanish_name user_full_name with
  | (_, none, _) => false
  | (user_first, some paternal, maternal) =>
    let combined_last := paternal ++ (match maternal with | some m => " " ++ m | none => "")
    let combined_last_norm := hyphensToSpaces (unidecodeStr (pyLower combined_last))
    let combined_tokens := splitWs combined_last_norm
    let given := unidecodeStr (pyLower author.given.orEmpty)
    let family := hyphensToSpaces (unidecodeStr (pyLower author.family.orEmpty))
    let firstOk :=
      match user_first with
      | [] => true
      | f :: _ => substrB f given
    firstOk && combined_tokens.any (fun t => substrB t family)

/-- `tokenize_name_fields` (search.py:82-94); the `*fields` varargs become a
list. -/
def tokenize_name_fields (fields : List String) : List String :=
  splitWs (stripPunct (hyphensToSpaces (unidecodeStr (pyLower (String.intercalate " " fields)))))

/-- `name_tokens_exact_match` (search.py:96-115).  `author.get("given", "")`
defaults only a *missing* key; a JSON-null field reaches `" ".join` as Python
`None` and raises `TypeError`, modelled by `none`.  Python set equality is
mutual membership of the two token lists. -/
def name_tokens_exact_match (author : Author) (user_full_name : String) : Option Bool :=
  match author.given.getWithDefault "", author.family.getWithDefault "" with
  | some g, some f =>
    let author_tokens := tokenize_name_fields [g, f]
    let user_tokens := tokenize_name_fields [user_full_name]
    some (author_tokens.all user_tokens.contains && user_tokens.all author_tokens.contains)
  | _, _ => none

/-- `any_author_matches_name` (search.py:117-122). -/
def any_author_matches_name (item : Item) (full_name : String) : Bool :=
  item.author.any (fun au => spanish_name_match_combined au full_name)

/-- `COMMON_INSTITUTION_WORDS` (search.py:6-10). -/
def COMMON_INSTITUTION_WORDS : List String :=
  ["universidad", "university", "college", "institute", "instituto",
   "institut", "facultad", "escuela", "politecnica", "autonoma", "superior",
   "council"]

/-- `normalize_institution_name` (search.py:124-135). -/
def normalize_institution_name (name : String) : List String :=
  let lowered := pyLower name
  let dehyphened := hyphensToSpaces lowered
  let depunct := stripPunct dehyphened
  let decoded := unidecodeStr depunct
  (splitWs decoded).filter (fun t => !(COMMON_INSTITUTION_WORDS.contains t))

/-- `institution_match` (search.py:137-146). -/
def institution_match (institution aff_str : String) : Bool :=
  let inst_tokens := normalize_institution_name institution
  let aff_tokens := normalize_institution_name aff_str
  if inst_tokens.isEmpty then false
  else inst_tokens.any aff_tokens.contains

/-- `check_affiliation_or_publisher` (search.py:148-162). -/
def check_affiliation_or_publisher (item : Item) (institution_name : String) : Bool :=
  item.author.any (fun au => au.affiliation.any (fun aff => institution_match institution_name aff))
    || institution_match institution_name item.publisher

/-- `get_created_year` (search.py:164-174). -/
def get_created_year (item : Item) : Option Int :=
  match item.createdDateParts with
  | [] => none
  | first :: _ =>
    match first with
    | [] => none
    | y :: _ => some y

/-- `check_created_year_in_range` (search.py:176-183). -/
def check_created_year_in_range (item : Item) (scholarship_year delta : Int) : Bool :=
  match get_created_year item with
  | none => false
  | some cyear => decide (scholarship_year - delta ≤ cyear ∧ cyear ≤ scholarship_year + delta)

/-- `compute_similarity_score` (search.py:185-204). -/
def compute_similarity_score (item : Item) (full_name institution_name : String)
    (scholarship_year : Int) : Int :=
  if !any_author_matches_name item full_name then -999
  else
    (1 : Int)
      + (if check_affiliation_or_publisher item institution_name then 1 else 0)
      + (if check_created_year_in_range item scholarship_year 5 then 1 else 0)

/-- One returned dict `{"doi": ..., "score": ...}` of `search_doi`. -/
structure DoiScore where
  doi : String
  score : Int
deriving DecidableEq, Repr

/-- The f-string `f"https://doi.org/{doi_val}"`. -/
def mk_doi_url (d : String) : String := "https://doi.org/" ++ d

/-- The inner author loop of `search_doi` (search.py:255-259): stop at the
first author with an exact token match; a `TypeError` from a null name field
(`none` from `name_tokens_exact_match`) aborts the whole search. -/
def item_exact_match (full_name : String) : List Author → Option Bool
  | [] => some false
  | au :: aus =>
    match name_tokens_exact_match au full_name with
    | none => none
    | some true => some true
    | some false => item_exact_match full_name aus

/-- The result-collection loop of `search_doi` (search.py:240-259): build
`scored_items` (records scoring `> 0`, with their scores, in input order) and
`exact_match_items` (records with an exact-token-matching author, in input
order); `none` models an uncaught `TypeError`. -/
def collect_items (full_name institution_name : String) (scholarship_year : Int) :
    List Item → Option (List (Int × Item) × List Item)
  | [] => some ([], [])
  | it :: its =>
    let sc := compute_similarity_score it full_name institution_name scholarship_year
    match item_exact_match full_name it.author with
    | none => none
    | some em =>
      match collect_items full_name institution_name scholarship_year its with
      | none => none
      | some (scored, exact) =>
        some ((if sc > 0 then (sc, it) :: scored else scored),
              (if em then it :: exact else exact))

/-- Stable descending insertion by score: an element is placed before the
first strictly smaller key, after equal keys — the order produced by Python's
stable `list.sort(key=score, reverse=True)`. -/
def insertDesc (p : Int × Item) : List (Int × Item) → List (Int × Item)
  | [] => [p]
  | q :: qs => if q.1 ≤ p.1 then p :: q :: qs else q :: insertDesc p qs

/-- Model of `scored_items.sort(key=lambda x: x[0], reverse=True)` — a stable
descending sort by score. -/
def sortDesc (l : List (Int × Item)) : List (Int × Item) := l.foldr insertDesc []

/-- The `last_name_query` built in `search_doi` (search.py:218-222). -/
def sd_last_name_query (name_query : String) : String :=
  let parsed := parse_spanish_name name_query
  (match parsed.2.1 with | some a => a | none => "")
    ++ (match parsed.2.2 with | some a => " " ++ a | none => "")

/-- The `full_name` built in `search_doi` (search.py:225). -/
def sd_full_name (name_query given_name : String) : String :=
  pyStrip (given_name ++ " " ++ sd_last_name_query name_query)

/-- `search_doi` (search.py:206-283), Policy B.  The CrossRef response is the
`results` parameter; the outer `Option` is exception propagation, the inner
`Option` is the Python `None`-versus-list return. -/
def search_doi (name_query given_name : String) (scholarship_year : Int)
    (institution_name : String) (results : List Item) :
    Option (Option (List DoiScore)) :=
  let full_name := sd_full_name name_query given_name
  match collect_items full_name institution_name scholarship_year results with
  | none => none
  | some (scored_items, exact_match_items) =>
    let sorted := sortDesc scored_items
    let best_scored := sorted.filter (fun p => decide (2 ≤ p.1))
    some (
      match best_scored with
      | (best_score, best_item) :: _ =>
        if truthyS best_item.doi then
          some [⟨mk_doi_url (best_item.doi.getD ""), best_score⟩]
        else none
      | [] =>
        match exact_match_items with
        | fallback_item :: _ =>
          if truthyS fallback_item.doi then
            some [⟨mk_doi_url (fallback_item.doi.getD ""), 1⟩]
          else none
        | [] => none)

/-- Claim-side selector: the record of maximal score, ties broken in favour
of the element seen first (the claims' "single highest-scoring record,
first-seen wins"). -/
def firstMax : List (Int × Item) → Option (Int × Item)
  | [] => none
  | p :: ps =>
    match firstMax ps with
    | none => some p
    | some q => if p.1 < q.1 then some q else some p

/-- Claim-side view of `scored_items`: the positively scored records with
their scores, in input order. -/
def scoredOf (full_name institution_name : String) (scholarship_year : Int)
    (results : List Item) : List (Int × Item) :=
  results.filterMap (fun it =>
    let sc := compute_similarity_score it full_name institution_name scholarship_year
    if sc > 0 then some (sc, it) else none)

/-- Claim-side view of `exact_match_items`: the records with an
exact-token-matching author, in input order. -/
def exactOf (full_name : String) (results : List Item) : List Item :=
  results.filter (fun it => item_exact_match full_name it.author == some true)

/-- One per-record result dict consumed by the Policy-A driver loop in
`scrape.py` (fields `d["doi"]` and `d["status"]`). -/
structure PolicyARes where
  doi : String
  status : String
deriving DecidableEq, Repr

/-- Modelled from the spec: the Policy-A revision of `search_doi` — the one
`scrape.py` imports, which is not among the source files — "caps at 3 DOIs
per person"; only this output-size bound is modelled, as the tier-selection
code under verification takes the result list as input. -/
def policyA_output_ok (doi_results : List PolicyARes) : Prop := doi_results.length ≤ 3

/-- The tier selection of the `scrape.py` driver loop (scrape.py:64-81):
prefer `PAREJA` records, else `nombre+institucion` records, else keep
everything with status `REVISA`.  Returns the kept records and the status
label written into the row. -/
def tier_select (doi_results : List PolicyARes) : List PolicyARes × String :=
  let p_only := doi_results.filter (fun d => d.status == "PAREJA")
  let ni_only := doi_results.filter (fun d => d.status == "nombre+institucion")
  if !p_only.isEmpty then (p_only, "PAREJA")
  else if !ni_only.isEmpty then (ni_only, "nombre+institucion")
  else (doi_results, "REVISA")

/-- The DOI cell written by the driver loop (scrape.py:84-85):
`", ".join([res["doi"] for res in final_results])`. -/
def doi_formatted (final_results : List PolicyARes) : String :=
  String.intercalate ", " (final_results.map (fun r => r.doi))

/-- One search-engine result entry consumed by `search_google_scholar`
(fields `title`, `snippet`, `link`, and the `link` fields of the entries of
`inlineLinks` / `relatedUrls`, `none` = missing key). -/
structure GResult where
  title : String
  snippet : String
  link : String
  inlineLinks : List (Option String)
  relatedUrls : List (Option String)
deriving DecidableEq, Repr

/-- `set.add`, modelled as insertion-order deduplication.  (CPython iterates
a `set` in an unspecified order; the properties proved do not depend on which
matching member of the set is picked.) -/
def add_link (acc : List String) (s : String) : List String :=
  if acc.contains s then acc else acc ++ [s]

/-- `if sub.get("link"): possible_links.add(sub["link"])` for one nested
entry — truthiness skips both a missing link and an empty one. -/
def add_opt (acc : List String) : Option String → List String
  | some s => if s ≠ "" then add_link acc s else acc
  | none => acc

/-- The `possible_links` set built for a candidate profile entry
(search.py:321-329). -/
def possible_links (r : GResult) : List String :=
  let acc0 : List String := if r.link ≠ "" then [r.link] else []
  let acc1 := r.inlineLinks.foldl add_opt acc0
  r.relatedUrls.foldl add_opt acc1

/-- The profile-URL pattern test `"scholar.google.com/citations?" in link`. -/
def contains_pat (s : String) : Bool := substrB "scholar.google.com/citations?" s

/-- The candidate-profile-entry test of `search_google_scholar`
(search.py:319-320): the phrase "user profiles for" in the lowercased title
or snippet, and the lowercased target name in title or snippet, or its first
word in the snippet. -/
def is_candidate (name_lower first_word : String) (r : GResult) : Bool :=
  let title_lower := pyLower r.title
  let snippet_lower := pyLower r.snippet
  (substrB "user profiles for" title_lower || substrB "user profiles for" snippet_lower)
    && (substrB name_lower title_lower || substrB name_lower snippet_lower
        || substrB first_word snippet_lower)

/-- The result loop of `search_google_scholar` (search.py:309-334): for each
result in order, a candidate entry returns the first profile-pattern member
of its link set; then (still within the same iteration) the primary link is
returned if it matches the pattern. -/
def scan_results (name_lower first_word : String) : List GResult → Option String
  | [] => none
  | r :: rs =>
    match (if is_candidate name_lower first_word r
           then (possible_links r).find? contains_pat
           else none) with
    | some l => some l
    | none =>
      if contains_pat r.link then some r.link
      else scan_results name_lower first_word rs

/-- `search_google_scholar` (search.py:285-338) with the transport layer cut
away: the parsed result list is the `results` parameter.  The outer `Option`
models the `IndexError` of `name_lower.split()[0]` on a whitespace-only
name (raised before the `try` block); the inner `Option` is the
found-vs-`None` return. -/
def search_google_scholar (name_query : String) (results : List GResult) :
    Option (Option String) :=
  let name_lower := pyLower name_query
  match splitWs name_lower with
  | [] => none
  | first_word :: _ => some (scan_results name_lower first_word results)

/-- The Profile Resolver as claim C5 words it: a first phase examines the
deduplicated link set of every candidate profile entry, and only if no
candidate entry yields a profile-pattern link does a second phase check the
primary link of every result. -/
def resolver_spec (name_lower first_word : String) (results : List GResult) :
    Option String :=
  match results.findSome? (fun r =>
      if is_candidate name_lower first_word r
      then (possible_links r).find? contains_pat
      else none) with
  | some l => some l
  | none => (results.find? (fun r => contains_pat r.link)).map (fun r => r.link)

/-- The per-result step of the single pass actually performed by
`search_google_scholar`: candidate link-set check first, then the primary
link, within the same iteration. -/
def scan_step (name_lower first_word : String) (r : GResult) : Option String :=
  match (if is_candidate name_lower first_word r
         then (possible_links r).find? contains_pat
         else none) with
  | some l => some l
  | none => if contains_pat r.link then some r.link else none

/-! ## Concrete records used by witnesses and counterexamples -/

/-- A record by author "juan perez" affiliated near Zaragoza, created 2016:
scores 3 against the query name "juan perez gomez", institution
"Universidad de Zaragoza", scholarship year 2015. -/
def item_full_match : Item :=
  ⟨some "d1", [⟨.str "juan", .str "perez", ["Dept Zaragoza"]⟩], "", [[2016]]⟩

/-- Like `item_full_match` but created far outside the year window: scores 2. -/
def item_inst_match : Item :=
  ⟨some "d2", [⟨.str "juan", .str "perez", ["Dept Zaragoza"]⟩], "", [[3000]]⟩

/-- Scores 3 against the same query but carries no DOI field. -/
def item_no_doi : Item :=
  ⟨none, [⟨.str "juan", .str "perez", ["Dept Zaragoza"]⟩], "", [[2016]]⟩

/-- A record whose author's tokens exactly equal the query name's tokens
(an exact-token fallback record, similarity score 1) with a DOI. -/
def item_exact_fallback : Item :=
  ⟨some "d9", [⟨.str "juan", .str "perez gomez", []⟩], "", []⟩

/-- A search-engine result that is not a candidate profile entry but whose
primary link matches the profile-URL pattern. -/
def gres_plain_link : GResult :=
  ⟨"papers by someone", "", "https://scholar.google.com/citations?user=x", [], []⟩

/-- A candidate profile entry ("User profiles for ..." title mentioning the
target) whose link matches the profile-URL pattern. -/
def gres_profiles_entry : GResult :=
  ⟨"User profiles for juan perez", "", "https://scholar.google.com/citations?user=y", [], []⟩

/-! ## General helper lemmas -/

theorem string_eq_empty_of_data {t : String} (h : t.data = []) : t = "" := by
  cases t
  simp_all

theorem mem_splitWs_ne_empty {s t : String} (h : t ∈ splitWs s) : t ≠ "" := by
  unfold splitWs at h
  simpa using (List.mem_filter.mp h).2

theorem substrB_empty_hay {t : String} (h : t ≠ "") : substrB t "" = false := by
  unfold substrB
  simp only [decide_eq_false_iff_not]
  intro hin
  rcases hin with ⟨pre, post, hpp⟩
  rcases List.append_eq_nil.mp hpp with ⟨h1, h2⟩
  rcases List.append_eq_nil.mp h1 with ⟨h3, h4⟩
  exact h (string_eq_empty_of_data h4)

theorem head?_eq_cons {α : Type} {l : List α} {a : α} (h : l.head? = some a) :
    ∃ t, l = a :: t := by
  cases l <;> simp_all

theorem filter_head? {α : Type} {l : List α} {q : α} (p : α → Bool)
    (h : l.head? = some q) (hq : p q = true) : (l.filter p).head? = some q := by
  obtain ⟨t, rfl⟩ := head?_eq_cons h
  simp [hq]

/-! ## Lemmas about `parse_spanish_name` -/

theorem parse_small {s : String} (h : (splitWs (pyLower s)).length < 2) :
    parse_spanish_name s = (splitWs (pyLower s), none, none) := by
  unfold parse_spanish_name
  simp [h]

theorem parse_two {s t0 t1 : String} (h : splitWs (pyLower s) = [t0, t1]) :
    parse_spanish_name s = ([t0], some t1, none) := by
  unfold parse_spanish_name
  rw [h]
  rfl

theorem parse_big {s t0 p m : String} {mid : List String}
    (h : splitWs (pyLower s) = t0 :: (mid ++ [p, m])) :
    parse_spanish_name s = ([t0], some p, some m) := by
  unfold parse_spanish_name
  rw [h]
  have hlen : (t0 :: (mid ++ [p, m])).length = mid.length + 3 := by simp
  have h1 : ¬ (t0 :: (mid ++ [p, m])).length < 2 := by omega
  have h2 : ¬ (t0 :: (mid ++ [p, m])).length = 2 := by omega
  simp only [h1, if_false, h2]
  have hsplit : t0 :: (mid ++ [p, m]) = (t0 :: (mid ++ [p])) ++ [m] := by simp
  have hsplit2 : t0 :: (mid ++ [p]) = (t0 :: mid) ++ [p] := by simp
  rw [hsplit, List.dropLast_concat, List.getLast?_concat, hsplit2, List.getLast?_concat]
  simp

theorem parse_fst_of_cons {s t0 : String} {rest : List String}
    (h : splitWs (pyLower s) = t0 :: rest) (h2 : 2 ≤ (splitWs (pyLower s)).length) :
    (parse_spanish_name s).1 = [t0] := by
  unfold parse_spanish_name
  rw [h]
  rw [h] at h2
  have h1 : ¬ (t0 :: rest).length < 2 := by omega
  simp only [h1, if_false]
  split <;> simp

/-- Claim C8: `parse_spanish_name` splits on whitespace and lowercases;
fewer than 2 tokens gives no surnames; exactly 2 tokens gives the first
token as given name, the second as paternal surname and no maternal
surname; 3 or more tokens give the first token as given name, the
second-to-last as paternal and the last as maternal surname (intervening
tokens discarded); every name with at least 2 tokens yields a non-empty
paternal surname. -/
theorem C8_parse_spanish_name (s : String) :
    ((splitWs (pyLower s)).length < 2 → (parse_spanish_name s).2 = (none, none)) ∧
    (∀ t0 t1, splitWs (pyLower s) = [t0, t1] →
      parse_spanish_name s = ([t0], some t1, none)) ∧
    (∀ t0 p m, ∀ mid : List String, splitWs (pyLower s) = t0 :: (mid ++ [p, m]) →
      parse_spanish_name s = ([t0], some p, some m)) ∧
    (2 ≤ (splitWs (pyLower s)).length →
      ∃ p, (parse_spanish_name s).2.1 = some p ∧ p ≠ "") := by
  refine ⟨fun h => by rw [parse_small h], fun t0 t1 h => parse_two h,
    fun t0 p m mid h => parse_big h, fun h2 => ?_⟩
  rcases hsp : splitWs (pyLower s) with _ | ⟨t0, rest⟩
  · rw [hsp] at h2; simp at h2
  rcases rest with _ | ⟨t1, rest2⟩
  · rw [hsp] at h2; simp at h2
  rcases List.eq_nil_or_concat rest2 with rfl | ⟨l2, m, rfl⟩
  · refine ⟨t1, ?_, mem_splitWs_ne_empty (t := t1) (by rw [hsp]; simp)⟩
    rw [parse_two hsp]
  rcases List.eq_nil_or_concat l2 with rfl | ⟨l3, p, rfl⟩
  · have hsp2 : splitWs (pyLower s) = t0 :: ([] ++ [t1, m]) := by simpa using hsp
    exact ⟨t1, by rw [parse_big hsp2], mem_splitWs_ne_empty (t := t1) (by rw [hsp2]; simp)⟩
  have hsp2 : splitWs (pyLower s) = t0 :: ((t1 :: l3) ++ [p, m]) := by simpa using hsp
  exact ⟨p, by rw [parse_big hsp2], mem_splitWs_ne_empty (t := p) (by rw [hsp2]; simp)⟩

/-- Witness for C8 at a concrete three-token name. -/
theorem C8_parse_spanish_name_witness :
    parse_spanish_name "Cándida Acín Sáiz" = (["cándida"], some "acín", some "sáiz") :=
  (C8_parse_spanish_name "Cándida Acín Sáiz").2.2.1 "cándida" "acín" "sáiz" [] (by decide)

/-- Claim C7: `institution_match` normalizes both sides and returns false
whenever the query's normalized token set is empty — in particular an empty
query string never matches — and otherwise returns true iff the two
normalized token sets intersect. -/
theorem C7_institution_match (q aff : String) :
    (institution_match "" aff = false) ∧
    (normalize_institution_name q = [] → institution_match q aff = false) ∧
    (normalize_institution_name q ≠ [] →
      (institution_match q aff = true ↔
        ∃ t ∈ normalize_institution_name q, t ∈ normalize_institution_name aff)) := by
  have h0 : normalize_institution_name "" = [] := by decide
  refine ⟨by simp [institution_match, h0], fun h => by simp [institution_match, h], fun h => ?_⟩
  simp [institution_match, h, List.isEmpty_iff, List.any_eq_true]

/-- Witness for C7: the spec's worked example (stopword "universidad" dropped
on both sides, token "zaragoza" shared), plus the empty-query case. -/
theorem C7_institution_match_witness :
    institution_match "Universidad de Zaragoza" "Dept. of Biology, Universidad de Zaragoza" = true ∧
    institution_match "" "anything" = false :=
  ⟨((C7_institution_match "Universidad de Zaragoza"
        "Dept. of Biology, Universidad de Zaragoza").2.2 (by decide)).mpr
      ⟨"zaragoza", by decide, by decide⟩,
   (C7_institution_match "" "anything").1⟩

/-- Claim C9 (implicit): a query string whose normalization is empty — for
example one consisting only of stopwords like "Universidad", or only
punctuation/whitespace — never matches any affiliation, so it can never
contribute the institution point to any record's similarity score. -/
theorem C9_empty_normalized_query (q : String) (hq : normalize_institution_name q = []) :
    (∀ aff, institution_match q aff = false) ∧
    (∀ item, check_affiliation_or_publisher item q = false) ∧
    (∀ item (fn : String) (yr : Int),
      compute_similarity_score item fn q yr = -999 ∨
      compute_similarity_score item fn q yr
        = 1 + (if check_created_year_in_range item yr 5 then 1 else 0)) := by
  have him : ∀ aff, institution_match q aff = false := fun aff => by
    simp [institution_match, hq]
  have hch : ∀ item, check_affiliation_or_publisher item q = false := fun item => by
    simp [check_affiliation_or_publisher, him]
  refine ⟨him, hch, fun item fn yr => ?_⟩
  by_cases hname : any_author_matches_name item fn
  · right
    simp [compute_similarity_score, hname, hch]
  · left
    simp [compute_similarity_score, hname]

/-- Witness for C9: the pure-stopword query "Universidad" and a
punctuation-only query normalize to the empty token list and never match. -/
theorem C9_empty_normalized_query_witness :
    institution_match "Universidad" "Universidad de Zaragoza" = false ∧
    institution_match "..- " "Universidad de Zaragoza" = false :=
  ⟨(C9_empty_normalized_query "Universidad" (by decide)).1 "Universidad de Zaragoza",
   (C9_empty_normalized_query "..- " (by decide)).1 "Universidad de Zaragoza"⟩

/-- Claim C2: `compute_similarity_score` returns -999 when no author passes
the Spanish combined-surname match, and otherwise 1 plus 1 for an
institution match of some affiliation or the publisher plus 1 for a created
year within ±5 years (inclusive) of the scholarship year; the result is
always -999 or in {1, 2, 3}; name-only matches score exactly 1 and
name+institution+year scores exactly 3. -/
theorem C2_compute_similarity_score (item : Item) (fn inst : String) (yr : Int) :
    (any_author_matches_name item fn = false →
      compute_similarity_score item fn inst yr = -999) ∧
    (any_author_matches_name item fn = true →
      compute_similarity_score item fn inst yr
        = 1 + (if check_affiliation_or_publisher item inst then 1 else 0)
            + (if check_created_year_in_range item yr 5 then 1 else 0)) ∧
    (compute_similarity_score item fn inst yr = -999 ∨
      compute_similarity_score item fn inst yr = 1 ∨
      compute_similarity_score item fn inst yr = 2 ∨
      compute_similarity_score item fn inst yr = 3) ∧
    (check_created_year_in_range item yr 5 = true ↔
      ∃ cy, get_created_year item = some cy ∧ yr - 5 ≤ cy ∧ cy ≤ yr + 5) ∧
    (any_author_matches_name item fn = true →
      check_affiliation_or_publisher item inst = false →
      check_created_year_in_range item yr 5 = false →
      compute_similarity_score item fn inst yr = 1) ∧
    (any_author_matches_name item fn = true →
      check_affiliation_or_publisher item inst = true →
      check_created_year_in_range item yr 5 = true →
      compute_similarity_score item fn inst yr = 3) := by
  refine ⟨fun h => by simp [compute_similarity_score, h],
    fun h => by simp [compute_similarity_score, h], ?_, ?_,
    fun h1 h2 h3 => by simp [compute_similarity_score, h1, h2, h3],
    fun h1 h2 h3 => by simp [compute_similarity_score, h1, h2, h3]⟩
  · by_cases h : any_author_matches_name item fn
    · by_cases h2 : check_affiliation_or_publisher item inst <;>
        by_cases h3 : check_created_year_in_range item yr 5 <;>
        simp [compute_similarity_score, h, h2, h3]
    · left
      simp [compute_similarity_score, h]
  · unfold check_created_year_in_range
    cases hg : get_created_year item with
    | none => simp
    | some cy => simp

/-- Witness for C2: a record matching name, institution and year scores 3;
a record matching the name only scores 1. -/
theorem C2_compute_similarity_score_witness :
    compute_similarity_score item_full_match "juan perez gomez" "Universidad de Zaragoza" 2015 = 3 ∧
    compute_similarity_score item_exact_fallback "juan perez gomez" "Universidad de Zaragoza" 2015 = 1 :=
  ⟨(C2_compute_similarity_score item_full_match "juan perez gomez" "Universidad de Zaragoza"
      2015).2.2.2.2.2 (by decide) (by decide) (by decide),
   (C2_compute_similarity_score item_exact_fallback "juan perez gomez" "Universidad de Zaragoza"
      2015).2.2.2.2.1 (by decide) (by decide) (by decide)⟩

theorem parse_pat_some {s pat : String} (h : (parse_spanish_name s).2.1 = some pat) :
    ∃ t0 rest, splitWs (pyLower s) = t0 :: rest ∧ (parse_spanish_name s).1 = [t0]
      ∧ 2 ≤ (splitWs (pyLower s)).length ∧ t0 ≠ "" := by
  have h2 : 2 ≤ (splitWs (pyLower s)).length := by
    by_contra hlt
    rw [parse_small (by omega)] at h
    simp at h
  rcases hsp : splitWs (pyLower s) with _ | ⟨t0, rest⟩
  · rw [hsp] at h2
    simp at h2
  · exact ⟨t0, rest, rfl, parse_fst_of_cons hsp h2, by rw [← hsp]; exact h2,
      mem_splitWs_ne_empty (by rw [hsp]; simp)⟩

theorem spanish_empty_given {family : PyStr} {affs : List String} (target : String) :
    spanish_name_match_combined ⟨.str "", family, affs⟩ target = false := by
  unfold spanish_name_match_combined
  rcases hP : parse_spanish_name target with ⟨fst, pat?, mat?⟩
  cases pat? with
  | none => rfl
  | some pat =>
    have hsome : (parse_spanish_name target).2.1 = some pat := by rw [hP]
    obtain ⟨t0, rest, hsp, hfst, h2, ht0⟩ := parse_pat_some hsome
    rw [hP] at hfst
    simp at hfst
    subst hfst
    have hred : unidecodeStr (pyLower ((PyStr.str "").orEmpty)) = "" := rfl
    simp [hred, substrB_empty_hay ht0]

/-- Claim C6: `spanish_name_match_combined` returns true iff the target's
first given-name token is a substring of the author's accent-stripped given
field and at least one token of the combined paternal+maternal surname
string is a substring of the author's accent-stripped, hyphen-normalized
family field; a target with fewer than 2 whitespace tokens returns false
immediately (the function is total, so nothing is raised). -/
theorem C6_spanish_name_match_combined (au : Author) (target : String) :
    ((splitWs (pyLower target)).length < 2 →
      spanish_name_match_combined au target = false) ∧
    (∀ t0 rest pat, splitWs (pyLower target) = t0 :: rest →
      (parse_spanish_name target).2.1 = some pat →
      (spanish_name_match_combined au target = true ↔
        substrB t0 (unidecodeStr (pyLower au.given.orEmpty)) = true ∧
        ∃ tk ∈ splitWs (hyphensToSpaces (unidecodeStr (pyLower
            (pat ++ (match (parse_spanish_name target).2.2 with
                     | some m => " " ++ m
                     | none => ""))))),
          substrB tk (hyphensToSpaces (unidecodeStr (pyLower au.family.orEmpty))) = true)) := by
  constructor
  · intro h
    unfold spanish_name_match_combined
    rw [parse_small h]
  · intro t0 rest pat hsp hpat
    rcases hP : parse_spanish_name target with ⟨fst, pat?, mat?⟩
    rw [hP] at hpat
    simp at hpat
    subst hpat
    obtain ⟨t0', rest', hsp', hfst, h2, ht0'⟩ := parse_pat_some (by rw [hP])
    rw [hP] at hfst
    simp at hfst
    have ht0 : t0' = t0 := by
      rw [hsp] at hsp'
      exact (List.cons.injEq .. ▸ hsp').1.symm ▸ rfl
    subst ht0
    subst hfst
    unfold spanish_name_match_combined
    rw [hP]
    simp [List.any_eq_true]

/-- Witness for C6: the accented, hyphenated example succeeds through the
characterization. -/
theorem C6_spanish_name_match_combined_witness :
    spanish_name_match_combined ⟨.str "Juan", .str "Pérez-Gómez", []⟩ "Juan Pérez Gómez" = true :=
  ((C6_spanish_name_match_combined ⟨.str "Juan", .str "Pérez-Gómez", []⟩
      "Juan Pérez Gómez").2 "juan" ["pérez", "gómez"] "pérez"
      (by decide) (by decide)).mpr ⟨by decide, "perez", by decide, by decide⟩

/-- Counterexample for C10: an author whose `given` field is JSON-null makes
`name_tokens_exact_match` raise a `TypeError` (modelled by `none`) instead of
returning a boolean, because `author.get("given", "")` only substitutes the
default for a *missing* key, and `" ".join` then receives Python `None`. -/
theorem C10_counterexample :
    name_tokens_exact_match ⟨.pynull, .str "perez", []⟩ "ana perez" = none := by decide

/-- Claim C10 as amended: an *absent* given/family field is treated as the
empty string by both matchers; `spanish_name_match_combined` also treats a
null field as empty and never raises; but `name_tokens_exact_match` raises
(`none`) whenever the given or family field is null; and an author whose
given field is absent or null never satisfies the combined-surname match. -/
theorem C10_missing_name_fields (au : Author) (target : String) :
    (au.given = .absent → name_tokens_exact_match au target
      = name_tokens_exact_match ⟨.str "", au.family, au.affiliation⟩ target) ∧
    (au.family = .absent → name_tokens_exact_match au target
      = name_tokens_exact_match ⟨au.given, .str "", au.affiliation⟩ target) ∧
    ((au.given = .absent ∨ au.given = .pynull) → spanish_name_match_combined au target
      = spanish_name_match_combined ⟨.str "", au.family, au.affiliation⟩ target) ∧
    ((au.family = .absent ∨ au.family = .pynull) → spanish_name_match_combined au target
      = spanish_name_match_combined ⟨au.given, .str "", au.affiliation⟩ target) ∧
    ((au.given = .pynull ∨ au.family = .pynull) →
      name_tokens_exact_match au target = none) ∧
    ((au.given = .absent ∨ au.given = .pynull) →
      spanish_name_match_combined au target = false) := by
  obtain ⟨g, f, affs⟩ := au
  refine ⟨fun h => by subst h; rfl, fun h => by subst h; cases g <;> rfl,
    fun h => ?_, fun h => ?_, fun h => ?_, fun h => ?_⟩
  · rcases h with h | h <;> subst h <;> rfl
  · rcases h with h | h <;> subst h <;> rfl
  · rcases h with h | h
    · subst h; rfl
    · subst h; cases g <;> rfl
  · have hred : spanish_name_match_combined ⟨g, f, affs⟩ target
        = spanish_name_match_combined ⟨.str "", f, affs⟩ target := by
      rcases h with h | h <;> subst h <;> rfl
    rw [hred, spanish_empty_given]

/-- Witness for C10: an author with an absent given field never passes the
combined-surname match. -/
theorem C10_missing_name_fields_witness :
    spanish_name_match_combined ⟨.absent, .str "perez", []⟩ "juan perez" = false :=
  (C10_missing_name_fields ⟨.absent, .str "perez", []⟩ "juan perez").2.2.2.2.2 (Or.inl rfl)

/-! ## Lemmas about the stable descending sort and the first-seen maximum -/

theorem insertDesc_ne_nil (p : Int × Item) (l : List (Int × Item)) : insertDesc p l ≠ [] := by
  cases l with
  | nil => simp [insertDesc]
  | cons q qs =>
    simp only [insertDesc]
    split <;> simp

theorem head?_insertDesc (p : Int × Item) (l : List (Int × Item)) :
    (insertDesc p l).head? = some (match l.head? with
      | none => p
      | some q => if q.1 ≤ p.1 then p else q) := by
  cases l with
  | nil => rfl
  | cons q qs =>
    simp only [insertDesc, List.head?_cons]
    split <;> simp

theorem firstMax_cons (p : Int × Item) (ps : List (Int × Item)) :
    firstMax (p :: ps) = match firstMax ps with
      | none => some p
      | some q => if p.1 < q.1 then some q else some p := rfl

theorem firstMax_eq_none {l : List (Int × Item)} : firstMax l = none ↔ l = [] := by
  cases l with
  | nil => simp [firstMax]
  | cons p ps =>
    rw [firstMax_cons]
    cases firstMax ps with
    | none => simp
    | some q =>
      simp only []
      split <;> simp

theorem sortDesc_head?_eq_firstMax (l : List (Int × Item)) :
    (sortDesc l).head? = firstMax l := by
  induction l with
  | nil => rfl
  | cons p ps ih =>
    show (insertDesc p (sortDesc ps)).head? = _
    rw [head?_insertDesc, ih, firstMax_cons]
    cases h : firstMax ps with
    | none => simp
    | some q =>
      by_cases hc : q.1 ≤ p.1
      · simp [hc, not_lt.mpr hc]
      · simp [hc, lt_of_not_le hc]

theorem mem_insertDesc {x p : Int × Item} {l : List (Int × Item)} :
    x ∈ insertDesc p l ↔ x = p ∨ x ∈ l := by
  induction l with
  | nil => simp [insertDesc]
  | cons q qs ih =>
    simp only [insertDesc]
    split
    · simp
    · simp only [List.mem_cons, ih]
      tauto

theorem mem_sortDesc {x : Int × Item} {l : List (Int × Item)} :
    x ∈ sortDesc l ↔ x ∈ l := by
  induction l with
  | nil => simp [sortDesc]
  | cons p ps ih =>
    show x ∈ insertDesc p (sortDesc ps) ↔ _
    rw [mem_insertDesc, ih]
    simp

theorem firstMax_ge {l : List (Int × Item)} {q : Int × Item}
    (h : firstMax l = some q) : ∀ x ∈ l, x.1 ≤ q.1 := by
  induction l generalizing q with
  | nil => simp [firstMax] at h
  | cons p ps ih =>
    rw [firstMax_cons] at h
    cases hf : firstMax ps with
    | none =>
      rw [hf] at h
      injection h with h
      subst h
      intro x hx
      rcases List.mem_cons.mp hx with rfl | hx2
      · exact le_refl _
      · rw [firstMax_eq_none.mp hf] at hx2
        simp at hx2
    | some r =>
      rw [hf] at h
      replace h : (if p.1 < r.1 then some r else some p) = some q := h
      by_cases hpr : p.1 < r.1
      · rw [if_pos hpr] at h
        injection h with h
        subst h
        intro x hx
        rcases List.mem_cons.mp hx with rfl | hx2
        · exact le_of_lt hpr
        · exact ih hf x hx2
      · rw [if_neg hpr] at h
        injection h with h
        subst h
        intro x hx
        rcases List.mem_cons.mp hx with rfl | hx2
        · exact le_refl _
        · exact le_trans (ih hf x hx2) (not_lt.mp hpr)

/-! ## Lemmas about `search_doi` -/

theorem collect_items_eq {full_name institution_name : String} {yr : Int}
    {results : List Item}
    (hok : ∀ it ∈ results, (item_exact_match full_name it.author).isSome = true) :
    collect_items full_name institution_name yr results
      = some (scoredOf full_name institution_name yr results, exactOf full_name results) := by
  induction results with
  | nil => rfl
  | cons it its ih =>
    obtain ⟨em, hem⟩ := Option.isSome_iff_exists.mp (hok it (by simp))
    have ih' := ih (fun j hj => hok j (by simp [hj]))
    by_cases hsc : compute_similarity_score it full_name institution_name yr > 0 <;>
      cases em <;>
      simp [collect_items, hem, ih', scoredOf, exactOf, List.filterMap_cons,
        List.filter_cons, hsc]

theorem scoredOf_mem {fn inst : String} {yr : Int} {results : List Item} {x : Int × Item}
    (hx : x ∈ scoredOf fn inst yr results) :
    x.2 ∈ results ∧ x.1 = compute_similarity_score x.2 fn inst yr := by
  simp only [scoredOf, List.mem_filterMap] at hx
  obtain ⟨it, hit, heq⟩ := hx
  by_cases hsc : compute_similarity_score it fn inst yr > 0
  · rw [if_pos hsc] at heq
    injection heq with heq
    subst heq
    exact ⟨hit, rfl⟩
  · rw [if_neg hsc] at heq
    simp at heq

theorem search_doi_eq {nq gn inst : String} {yr : Int} {results : List Item}
    (hok : ∀ it ∈ results, (item_exact_match (sd_full_name nq gn) it.author).isSome = true) :
    search_doi nq gn yr inst results
      = some (
        match (sortDesc (scoredOf (sd_full_name nq gn) inst yr results)).filter
            (fun p => decide (2 ≤ p.1)) with
        | (best_score, best_item) :: _ =>
          if truthyS best_item.doi then
            some [⟨mk_doi_url (best_item.doi.getD ""), best_score⟩]
          else none
        | [] =>
          match exactOf (sd_full_name nq gn) results with
          | fallback_item :: _ =>
            if truthyS fallback_item.doi then
              some [⟨mk_doi_url (fallback_item.doi.getD ""), 1⟩]
            else none
          | [] => none) := by
  simp only [search_doi]
  rw [collect_items_eq hok]

/-- Claim C1: Policy B of `search_doi` — among records with similarity score
at least 2, the DOI of the single highest-scoring record is returned with its
score, ties broken in favour of the record seen first (`firstMax`); if no
record scores at least 2, the DOI of the first record in original order with
an exact-token-matching author is returned with the fixed score 1; if
neither case applies the result is Python `None`; and in every case at most
one DOI is returned.  (The DOI-carrying hypotheses reflect the claim's
phrase "returns the DOI of ..."; the behaviour on a selected record without
a usable DOI is claim C4's subject.) -/
theorem C1_search_doi_policy_b (nq gn inst : String) (yr : Int) (results : List Item)
    (hok : ∀ it ∈ results, (item_exact_match (sd_full_name nq gn) it.author).isSome = true) :
    (∀ l, search_doi nq gn yr inst results = some (some l) → l.length ≤ 1) ∧
    (∀ s it d, firstMax (scoredOf (sd_full_name nq gn) inst yr results) = some (s, it) →
      2 ≤ s → it.doi = some d → d ≠ "" →
      search_doi nq gn yr inst results = some (some [⟨mk_doi_url d, s⟩])) ∧
    (∀ it d, (∀ j ∈ results, compute_similarity_score j (sd_full_name nq gn) inst yr < 2) →
      (exactOf (sd_full_name nq gn) results).head? = some it →
      it.doi = some d → d ≠ "" →
      search_doi nq gn yr inst results = some (some [⟨mk_doi_url d, 1⟩])) ∧
    ((∀ j ∈ results, compute_similarity_score j (sd_full_name nq gn) inst yr < 2) →
      exactOf (sd_full_name nq gn) results = [] →
      search_doi nq gn yr inst results = some none) := by
  have hfilter_nil : (∀ j ∈ results,
        compute_similarity_score j (sd_full_name nq gn) inst yr < 2) →
      (sortDesc (scoredOf (sd_full_name nq gn) inst yr results)).filter
        (fun p => decide (2 ≤ p.1)) = [] := by
    intro hlt
    rw [List.filter_eq_nil_iff]
    intro x hx
    obtain ⟨hmem, hsc⟩ := scoredOf_mem (mem_sortDesc.mp hx)
    have := hlt x.2 hmem
    simp only [decide_eq_true_eq]
    omega
  refine ⟨?_, ?_, ?_, ?_⟩
  · intro l h
    rw [search_doi_eq hok] at h
    injection h with h
    rcases hbs : (sortDesc (scoredOf (sd_full_name nq gn) inst yr results)).filter
        (fun p => decide (2 ≤ p.1)) with _ | ⟨⟨bs, bi⟩, rest⟩
    · rw [hbs] at h
      rcases hex : exactOf (sd_full_name nq gn) results with _ | ⟨fb, rest2⟩
      · rw [hex] at h
        replace h : (none : Option (List DoiScore)) = some l := h
        simp at h
      · rw [hex] at h
        replace h : (if truthyS fb.doi = true
            then some [⟨mk_doi_url (fb.doi.getD ""), (1 : Int)⟩] else none) = some l := h
        split at h
        · injection h with h
          subst h
          simp
        · simp at h
    · rw [hbs] at h
      replace h : (if truthyS bi.doi = true
          then some [⟨mk_doi_url (bi.doi.getD ""), bs⟩] else none) = some l := h
      split at h
      · injection h with h
        subst h
        simp
      · simp at h
  · intro s it d hmax hs hd hne
    have hhead : (sortDesc (scoredOf (sd_full_name nq gn) inst yr results)).head?
        = some (s, it) := by
      rw [sortDesc_head?_eq_firstMax]
      exact hmax
    have hq : (fun p : Int × Item => decide (2 ≤ p.1)) (s, it) = true := by simpa using hs
    have hfh := filter_head? (fun p : Int × Item => decide (2 ≤ p.1)) hhead hq
    obtain ⟨t, ht⟩ := head?_eq_cons hfh
    rw [search_doi_eq hok, ht]
    simp [truthyS, hd, hne]
  · intro it d hlt hex hd hne
    obtain ⟨t, ht⟩ := head?_eq_cons hex
    rw [search_doi_eq hok, hfilter_nil hlt, ht]
    simp [truthyS, hd, hne]
  · intro hlt hex
    rw [search_doi_eq hok, hfilter_nil hlt, hex]

/-- Witness for C1: among two candidates scoring 2 and 3 (lower score seen
first), Policy B returns the DOI of the score-3 record with its score. -/
theorem C1_search_doi_policy_b_witness :
    search_doi "juan perez gomez" "juan" 2015 "Universidad de Zaragoza"
      [item_inst_match, item_full_match] = some (some [⟨mk_doi_url "d1", 3⟩]) :=
  (C1_search_doi_policy_b "juan perez gomez" "juan" "Universidad de Zaragoza" 2015
      [item_inst_match, item_full_match] (by decide)).2.1 3 item_full_match "d1"
    (by decide) (by decide) (by decide) (by decide)

/-- Counterexample for C4: a batch whose highest-scoring record (score 3,
hence at least 2) has no DOI, while a later record would succeed as the
exact-token fallback with a usable DOI; `search_doi` nevertheless returns
Python `None` — it abandons the search instead of skipping the DOI-less
record or continuing to the fallback, contradicting the claim. -/
theorem C4_counterexample :
    compute_similarity_score item_no_doi (sd_full_name "juan perez gomez" "juan")
        "Universidad de Zaragoza" 2015 = 3 ∧
    item_no_doi.doi = none ∧
    (exactOf (sd_full_name "juan perez gomez" "juan")
        [item_no_doi, item_exact_fallback]).head? = some item_exact_fallback ∧
    truthyS item_exact_fallback.doi = true ∧
    search_doi "juan perez gomez" "juan" 2015 "Universidad de Zaragoza"
        [item_no_doi, item_exact_fallback] = some none := by
  decide

/-- Claim C4 as amended: a record lacking a DOI is never fatal (no exception
arises from it), but it is not skipped: it is still scored, and whenever the
selected highest-scoring record (score at least 2) has a missing or empty
DOI, `search_doi` immediately returns Python `None` — for every batch,
regardless of any other eligible records or of the exact-token fallback. -/
theorem C4_missing_doi_aborts (nq gn inst : String) (yr : Int) (results : List Item)
    (hok : ∀ it ∈ results, (item_exact_match (sd_full_name nq gn) it.author).isSome = true) :
    ∀ s it, firstMax (scoredOf (sd_full_name nq gn) inst yr results) = some (s, it) →
      2 ≤ s → truthyS it.doi = false →
      search_doi nq gn yr inst results = some none := by
  intro s it hmax hs htr
  have hhead : (sortDesc (scoredOf (sd_full_name nq gn) inst yr results)).head?
      = some (s, it) := by
    rw [sortDesc_head?_eq_firstMax]
    exact hmax
  have hq : (fun p : Int × Item => decide (2 ≤ p.1)) (s, it) = true := by simpa using hs
  have hfh := filter_head? (fun p : Int × Item => decide (2 ≤ p.1)) hhead hq
  obtain ⟨t, ht⟩ := head?_eq_cons hfh
  rw [search_doi_eq hok, ht]
  simp [htr]

/-- Witness for the amended C4 at the counterexample batch. -/
theorem C4_missing_doi_aborts_witness :
    search_doi "juan perez gomez" "juan" 2015 "Universidad de Zaragoza"
      [item_no_doi, item_exact_fallback] = some none :=
  C4_missing_doi_aborts "juan perez gomez" "juan" "Universidad de Zaragoza" 2015
    [item_no_doi, item_exact_fallback] (by decide) 3 item_no_doi
    (by decide) (by decide) (by decide)

/-! ## Profile resolver -/

theorem findSome?_none_of {α β : Type} {f : α → Option β} {l : List α}
    (h : ∀ a ∈ l, f a = none) : l.findSome? f = none := by
  induction l with
  | nil => rfl
  | cons a as ih =>
    rw [List.findSome?_cons, h a (by simp)]
    exact ih fun x hx => h x (by simp [hx])

/-- Counterexample for C5: the first result is not a candidate profile entry
but its primary link matches the profile pattern; the second result is a
candidate profile entry whose link set contains a profile-pattern link.  The
claim's two-phase order would return the candidate's link (as `resolver_spec`
does), but `search_google_scholar` returns the first result's primary link:
the primary-link fallback is interleaved, not a second pass. -/
theorem C5_counterexample :
    resolver_spec (pyLower "juan perez") "juan" [gres_plain_link, gres_profiles_entry]
        = some "https://scholar.google.com/citations?user=y" ∧
    search_google_scholar "juan perez" [gres_plain_link, gres_profiles_entry]
        = some (some "https://scholar.google.com/citations?user=x") ∧
    ("https://scholar.google.com/citations?user=x" : String)
        ≠ "https://scholar.google.com/citations?user=y" := by
  decide

/-- Claim C5 as amended: the Profile Resolver makes a single left-to-right
pass; for each result in order it first checks, when the result is a
candidate profile entry, the deduplicated link set for a profile-pattern
link, and then — still within the same iteration, before any later result —
its primary link; the first hit is returned; when a name token exists, no
error arises and an absent result is returned when nothing matches. -/
theorem C5_profile_resolver_single_pass (nq : String) (results : List GResult)
    (fw : String) (rest : List String) (h : splitWs (pyLower nq) = fw :: rest) :
    search_google_scholar nq results
      = some (results.findSome? (scan_step (pyLower nq) fw)) ∧
    ((∀ r ∈ results, scan_step (pyLower nq) fw r = none) →
      search_google_scholar nq results = some none) := by
  have key : ∀ rs : List GResult,
      scan_results (pyLower nq) fw rs = rs.findSome? (scan_step (pyLower nq) fw) := by
    intro rs
    induction rs with
    | nil => rfl
    | cons r rs ih =>
      have hscan : scan_results (pyLower nq) fw (r :: rs)
          = (match (if is_candidate (pyLower nq) fw r
              then (possible_links r).find? contains_pat else none) with
            | some l => some l
            | none => if contains_pat r.link then some r.link
                      else scan_results (pyLower nq) fw rs) := rfl
      have hstep : scan_step (pyLower nq) fw r
          = (match (if is_candidate (pyLower nq) fw r
              then (possible_links r).find? contains_pat else none) with
            | some l => some l
            | none => if contains_pat r.link then some r.link else none) := rfl
      rw [List.findSome?_cons, hscan, hstep]
      cases hc : (if is_candidate (pyLower nq) fw r
          then (possible_links r).find? contains_pat else none) with
      | some l => rfl
      | none =>
        by_cases hp : contains_pat r.link
        · simp [hp]
        · simp [hp, ih]
  constructor
  · show (match splitWs (pyLower nq) with
        | [] => none
        | first_word :: _ => some (scan_results (pyLower nq) first_word results))
      = some (results.findSome? (scan_step (pyLower nq) fw))
    rw [h]
    show some (scan_results (pyLower nq) fw results) = _
    rw [key]
  · intro hall
    show (match splitWs (pyLower nq) with
        | [] => none
        | first_word :: _ => some (scan_results (pyLower nq) first_word results))
      = some none
    rw [h]
    show some (scan_results (pyLower nq) fw results) = _
    rw [key, findSome?_none_of hall]

/-- Witness for the amended C5 at the counterexample result list. -/
theorem C5_profile_resolver_single_pass_witness :
    search_google_scholar "juan perez" [gres_plain_link, gres_profiles_entry]
      = some ([gres_plain_link, gres_profiles_entry].findSome?
          (scan_step (pyLower "juan perez") "juan")) :=
  (C5_profile_resolver_single_pass "juan perez" [gres_plain_link, gres_profiles_entry]
    "juan" ["perez"] (by decide)).1

/-! ## Policy A tier selection (scrape.py) -/

/-- Claim C3: for a non-empty batch of per-record Policy-A results (capped at
3 by the Policy-A search, spec-modelled), the tier selection of the driver
loop keeps at most 3 records, prefers PAREJA over nombre+institucion over
the REVISA base case, sets the status field to the chosen tier's label, and
the DOI cell is the comma-separated join of the kept records' DOIs. -/
theorem C3_policy_a_tiering (doi_results : List PolicyARes)
    (hcap : policyA_output_ok doi_results) (_hne : doi_results ≠ []) :
    (tier_select doi_results).1.length ≤ 3 ∧
    ((tier_select doi_results).2 = "PAREJA" ∨
      (tier_select doi_results).2 = "nombre+institucion" ∨
      (tier_select doi_results).2 = "REVISA") ∧
    ((∃ d ∈ doi_results, d.status = "PAREJA") →
      tier_select doi_results
        = (doi_results.filter (fun d => d.status == "PAREJA"), "PAREJA")) ∧
    ((∀ d ∈ doi_results, d.status ≠ "PAREJA") →
      (∃ d ∈ doi_results, d.status = "nombre+institucion") →
      tier_select doi_results
        = (doi_results.filter (fun d => d.status == "nombre+institucion"),
           "nombre+institucion")) ∧
    ((∀ d ∈ doi_results, d.status ≠ "PAREJA" ∧ d.status ≠ "nombre+institucion") →
      tier_select doi_results = (doi_results, "REVISA")) ∧
    doi_formatted (tier_select doi_results).1
      = String.intercalate ", " ((tier_select doi_results).1.map (fun r => r.doi)) := by
  have hfe : ∀ (q : String) (l : List PolicyARes),
      (∀ d ∈ l, d.status ≠ q) → l.filter (fun d => d.status == q) = [] := by
    intro q l hall
    rw [List.filter_eq_nil_iff]
    intro d hd
    simp [hall d hd]
  have hne_filter : ∀ (q : String) (l : List PolicyARes),
      (∃ d ∈ l, d.status = q) → l.filter (fun d => d.status == q) ≠ [] := by
    rintro q l ⟨d, hd, hds⟩ hnil
    rw [List.filter_eq_nil_iff] at hnil
    have hcontra := hnil d hd
    simp [hds] at hcontra
  by_cases hp : doi_results.filter (fun d => d.status == "PAREJA") = []
  · by_cases hni : doi_results.filter (fun d => d.status == "nombre+institucion") = []
    · have ht : tier_select doi_results = (doi_results, "REVISA") := by
        simp [tier_select, List.isEmpty_iff, hp, hni]
      refine ⟨by rw [ht]; exact hcap, by rw [ht]; right; right; rfl, ?_, ?_, fun _ => ht, rfl⟩
      · intro hex
        exact absurd hp (hne_filter _ _ hex)
      · intro _ hex
        exact absurd hni (hne_filter _ _ hex)
    · have ht : tier_select doi_results
          = (doi_results.filter (fun d => d.status == "nombre+institucion"),
             "nombre+institucion") := by
        simp [tier_select, List.isEmpty_iff, hp, hni]
      refine ⟨by rw [ht]; exact le_trans (List.length_filter_le _ _) hcap,
        by rw [ht]; right; left; rfl, ?_, fun _ _ => ht, ?_, rfl⟩
      · intro hex
        exact absurd hp (hne_filter _ _ hex)
      · intro hall
        exact absurd (hfe _ _ (fun d hd => (hall d hd).2)) hni
  · have ht : tier_select doi_results
        = (doi_results.filter (fun d => d.status == "PAREJA"), "PAREJA") := by
      simp [tier_select, List.isEmpty_iff, hp]
    refine ⟨by rw [ht]; exact le_trans (List.length_filter_le _ _) hcap,
      by rw [ht]; left; rfl, fun _ => ht, ?_, ?_, rfl⟩
    · intro hall _
      exact absurd (hfe _ _ hall) hp
    · intro hall
      exact absurd (hfe _ _ (fun d hd => (hall d hd).1)) hp

/-- Witness for C3: a two-record batch with one PAREJA record keeps exactly
the PAREJA record and labels the row PAREJA. -/
theorem C3_policy_a_tiering_witness :
    tier_select [⟨"a", "REVISA"⟩, ⟨"b", "PAREJA"⟩] = ([⟨"b", "PAREJA"⟩], "PAREJA") :=
  ((C3_policy_a_tiering [⟨"a", "REVISA"⟩, ⟨"b", "PAREJA"⟩]
      (by show List.length _ ≤ 3; decide) (by decide)).2.2.1
    ⟨⟨"b", "PAREJA"⟩, by decide, rfl⟩).trans (by decide)
